import Mathlib

/-!
Verification development for `src/telecom/src/queue.ts` (`CallMediaQueue`).

The source file contains two near-identical variants of the class separated by a
document marker; the first variant (the one with `bufferLimit` and a throwing
`setVolume`) is the one the specification adopts and the one whose line numbers
the claims reference, so it is the variant embedded here.

Modelling choices:
- JavaScript numbers that the claims treat as exact reals/integers
  (`volumeLevel`, `packetDuration`, `bufferLimit`, sample arithmetic) are
  embedded as `ℚ` / `ℤ` / `ℕ`.  For `setVolume`'s validation behaviour the
  full JavaScript number line (NaN, ±Infinity, non-numbers) matters, so a
  dedicated `JSNumber` / `JSVal` model with JavaScript comparison and
  `Math.min`/`Math.max` semantics is given alongside.
- Buffers are `List ℕ` of bytes.  Queue payloads are stored base64-encoded in
  the source and decoded with `Buffer.from(_, 'base64')` wherever bytes are
  needed; since base64 is a bijection between byte strings and their wire
  encodings, payloads are modelled directly as the underlying raw byte lists.
  The truthiness test `socketMessage?.media?.payload` (an empty string is
  falsy) corresponds to the decoded byte list being nonempty.
- The `setTimeout`-based drain is modelled by the `isSending` flag (a pending
  one-shot drain) plus the pure step `sendNext`; wire messages produced by a
  step are returned explicitly.
-/

namespace CallMediaQueue

/-- The `event` union of the outbound `SocketMessage` interface:
`'media' | 'mark' | 'clear'`. -/
inductive Event where
  | media
  | mark
  | clear
deriving DecidableEq, Repr

/-- The `SocketMessage` interface: an event tag with optional `media.payload`
(raw decoded bytes, see module comment) and optional `mark.name`. -/
structure SocketMessage where
  event : Event
  media : Option (List ℕ)
  mark : Option String
deriving DecidableEq, Repr

/-- The JSON object built by `sendToTwilio` and handed to `socket.send`. -/
structure WireMsg where
  event : Event
  streamSid : String
  media : Option (List ℕ)
  mark : Option String
deriving DecidableEq, Repr

/-- The mutable fields of a `CallMediaQueue` instance.  The audio-format
fields (`channels`, `sampleRate`, `bytesPerSample`) are set once in the
constructor and never reassigned, so they are embedded as the constants
below rather than as state fields. -/
structure State where
  queue : List SocketMessage
  isSending : Bool
  streamSid : String
  packetDuration : ℚ
  volumeLevel : ℚ
  bufferLimit : ℚ
deriving DecidableEq, Repr

/-- `this.channels = 1` (mono audio). -/
def channels : ℕ := 1

/-- `this.sampleRate = 16000` (16 kHz). -/
def sampleRate : ℕ := 16000

/-- `this.bytesPerSample = 2` (16-bit PCM). -/
def bytesPerSample : ℕ := 2

/-- The constructor's initial field assignments. -/
def initialState (streamSid : String) : State where
  queue := []
  isSending := false
  streamSid := streamSid
  packetDuration := 0
  volumeLevel := 1
  bufferLimit := 1000

/-- Duration computation performed in `sendNext`:
`numberOfSamples = payloadBuffer.length / (channels * bytesPerSample)` and
`packetDuration = (numberOfSamples / sampleRate) * 1000`. -/
def durationMs (payloadByteLength : ℕ) : ℚ :=
  ((payloadByteLength : ℚ) / ((channels : ℚ) * (bytesPerSample : ℚ))) / (sampleRate : ℚ) * 1000

/-- Byte length of the base64 wire encoding of an `n`-byte payload
(`4 * ceil(n / 3)`); used only to contrast "raw" with "wire-encoded" length. -/
def base64Length (n : ℕ) : ℕ := 4 * ((n + 2) / 3)

/-- `audioData.readInt16LE(i)`: assemble two little-endian bytes into a signed
16-bit value. -/
def readInt16LE (lo hi : ℕ) : ℤ :=
  let u : ℕ := lo % 256 + 256 * (hi % 256)
  if u < 32768 then (u : ℤ) else (u : ℤ) - 65536

/-- The clipping step `Math.min(Math.max(newSample, -32768), 32767)`. -/
def clamp16 (x : ℤ) : ℤ := min (max x (-32768)) 32767

/-- `newAudioData.writeInt16LE(value, i)`: the two little-endian bytes of the
two's-complement encoding of an in-range signed 16-bit value. -/
def writeInt16LE (value : ℤ) : ℕ × ℕ :=
  let u : ℕ := (value % 65536).toNat
  (u % 256, u / 256)

/-- The processing loop of `adjustVolume` (the branch taken when the gain is
not 1): for `i = 0, 2, 4, ...` with `i + 1 < audioData.length`, read the
sample, scale by the gain, floor, clamp, and write back into the freshly
`Buffer.alloc`-ed (hence zero-filled) output.  A trailing odd byte is never
written, so it remains the allocation's `0`. -/
def adjustSamples (volumeLevel : ℚ) : List ℕ → List ℕ
  | lo :: hi :: rest =>
    let sample : ℤ := readInt16LE lo hi
    let newSample : ℤ := clamp16 (Int.floor ((sample : ℚ) * volumeLevel))
    (writeInt16LE newSample).1 :: (writeInt16LE newSample).2 :: adjustSamples volumeLevel rest
  | _ :: [] => [0]
  | [] => []

/-- `adjustVolume(audioData)`, parameterised by the `this.volumeLevel` it
reads: identity fast-path when the gain is 1, else the sample loop. -/
def adjustVolume (volumeLevel : ℚ) (audioData : List ℕ) : List ℕ :=
  if volumeLevel = 1 then audioData else adjustSamples volumeLevel audioData

/-- View a byte buffer as its sequence of whole 16-bit little-endian samples
(a trailing odd byte contributes no sample). -/
def samples : List ℕ → List ℤ
  | lo :: hi :: rest => readInt16LE lo hi :: samples rest
  | _ => []

/-- `processNext`: if no send is in flight and the queue is nonempty, flag
`isSending` and schedule a one-shot drain (`setTimeout(sendNext,
packetDuration)`); the pending timer is represented by `isSending = true`. -/
def processNext (s : State) : State :=
  if s.isSending = false ∧ s.queue ≠ [] then { s with isSending := true } else s

/-- `sendToTwilio`: wrap a `SocketMessage` with the session's `streamSid`. -/
def sendToTwilio (streamSid : String) (socketMessage : SocketMessage) : WireMsg where
  event := socketMessage.event
  streamSid := streamSid
  media := socketMessage.media
  mark := socketMessage.mark

/-- `sendNext`, the drain fired by the timer: on an empty queue reset
`isSending` and `packetDuration`; else `shift()` the head, recompute
`packetDuration` from the payload byte length when the head has a truthy
(nonempty) media payload, send it, clear `isSending` and run `processNext`.
Returns the new state and the wire message sent, if any. -/
def sendNext (s : State) : State × Option WireMsg :=
  match s.queue with
  | [] => ({ s with isSending := false, packetDuration := 0 }, none)
  | socketMessage :: rest =>
    let s1 : State :=
      match socketMessage.media with
      | some payload =>
        if payload ≠ [] then
          { s with queue := rest, packetDuration := durationMs payload.length }
        else
          { s with queue := rest }
      | none => { s with queue := rest }
    (processNext { s1 with isSending := false },
     some (sendToTwilio s.streamSid socketMessage))

/-- The gain step inside `enqueue`: `adjustVolume` is invoked (and the payload
re-encoded) only under the guard `this.volumeLevel === 1 && mediaData.media`,
exactly as the source writes it. -/
def applyGainAtEnqueue (volumeLevel : ℚ) (mediaData : SocketMessage) : SocketMessage :=
  if volumeLevel = 1 then
    match mediaData.media with
    | some payload => { mediaData with media := some (adjustVolume volumeLevel payload) }
    | none => mediaData
  else mediaData

/-- `enqueue`: drop (and warn) when `queue.length >= bufferLimit`; otherwise
run the gain step, push, and wake the pacer via `processNext`. -/
def enqueue (s : State) (mediaData : SocketMessage) : State :=
  if s.bufferLimit ≤ (s.queue.length : ℚ) then s
  else
    processNext { s with queue := s.queue ++ [applyGainAtEnqueue s.volumeLevel mediaData] }

/-- The public `media(payload)` method. -/
def media (s : State) (payload : List ℕ) : State :=
  enqueue s { event := Event.media, media := some payload, mark := none }

/-- The public `mark(name)` method. -/
def mark (s : State) (name : String) : State :=
  enqueue s { event := Event.mark, media := none, mark := some name }

/-- The public `clear()` method: `sendToTwilio({ event: 'clear' })` then
`clearQueue()`.  Returns the new state and the single wire message sent. -/
def clear (s : State) : State × WireMsg :=
  ({ s with queue := [] },
   sendToTwilio s.streamSid { event := Event.clear, media := none, mark := none })

/-- The public `setVolume(volume)` method on the rational model of the state
(a `ℚ` argument is always a finite `number`, so the `typeof` test passes):
throw for `volume < 0 || volume > 1`, else store the clamped value.  The full
JavaScript-number behaviour, NaN included, is `setVolumeNum` below. -/
def setVolume (s : State) (volume : ℚ) : Except String State :=
  if volume < 0 ∨ volume > 1 then
    Except.error "Invalid volume level. It should be a number between 0 and 1."
  else
    Except.ok { s with volumeLevel := max 0 (min 1 volume) }

/-- A JavaScript number: NaN, ±Infinity, or a finite value. -/
inductive JSNumber where
  | nan
  | posInf
  | negInf
  | fin (q : ℚ)
deriving DecidableEq, Repr

/-- A JavaScript value as far as `typeof v !== 'number'` can see. -/
inductive JSVal where
  | num (n : JSNumber)
  | nonNumber
deriving DecidableEq, Repr

/-- JavaScript `<`: any comparison with NaN is false. -/
def jsLt : JSNumber → JSNumber → Bool
  | JSNumber.nan, _ => false
  | _, JSNumber.nan => false
  | JSNumber.negInf, JSNumber.negInf => false
  | JSNumber.negInf, _ => true
  | _, JSNumber.negInf => false
  | JSNumber.posInf, _ => false
  | JSNumber.fin _, JSNumber.posInf => true
  | JSNumber.fin a, JSNumber.fin b => decide (a < b)

/-- JavaScript `>`. -/
def jsGt (a b : JSNumber) : Bool := jsLt b a

/-- `Math.min`: NaN-propagating minimum. -/
def jsMin : JSNumber → JSNumber → JSNumber
  | JSNumber.nan, _ => JSNumber.nan
  | _, JSNumber.nan => JSNumber.nan
  | JSNumber.negInf, _ => JSNumber.negInf
  | _, JSNumber.negInf => JSNumber.negInf
  | JSNumber.posInf, b => b
  | a, JSNumber.posInf => a
  | JSNumber.fin a, JSNumber.fin b => JSNumber.fin (min a b)

/-- `Math.max`: NaN-propagating maximum. -/
def jsMax : JSNumber → JSNumber → JSNumber
  | JSNumber.nan, _ => JSNumber.nan
  | _, JSNumber.nan => JSNumber.nan
  | JSNumber.posInf, _ => JSNumber.posInf
  | _, JSNumber.posInf => JSNumber.posInf
  | JSNumber.negInf, b => b
  | a, JSNumber.negInf => a
  | JSNumber.fin a, JSNumber.fin b => JSNumber.fin (max a b)

/-- `setVolume(volume)` over full JavaScript values, returning the new stored
`volumeLevel` on success: throw when
`typeof volume !== 'number' || volume < 0 || volume > 1`, else store
`Math.max(0, Math.min(1, volume))`. -/
def setVolumeNum (volume : JSVal) : Except String JSNumber :=
  match volume with
  | JSVal.nonNumber =>
    Except.error "Invalid volume level. It should be a number between 0 and 1."
  | JSVal.num v =>
    if jsLt v (JSNumber.fin 0) || jsGt v (JSNumber.fin 1) then
      Except.error "Invalid volume level. It should be a number between 0 and 1."
    else
      Except.ok (jsMax (JSNumber.fin 0) (jsMin (JSNumber.fin 1) v))

/-- An inbound `mark` object, `{ name: ... }`. -/
structure InboundMark where
  name : String
deriving DecidableEq, Repr

/-- An inbound control message after `JSON.parse`: an arbitrary `event`
string and an optional `mark` object. -/
structure InboundMsg where
  event : String
  mark : Option InboundMark
deriving DecidableEq, Repr

/-- The socket `message` handler: switch on `data.event`; on `'mark'`, emit
`data.mark.name` (a missing `mark` object raises a TypeError that the
surrounding try/catch logs, emitting nothing); every other event falls
through the switch.  The handler mutates no session state; the returned list
is the sequence of mark-echo emissions. -/
def onMessage (s : State) (data : InboundMsg) : State × List String :=
  (s,
   if data.event = "mark" then
     match data.mark with
     | some m => [m.name]
     | none => []
   else [])

/-- A sequence of `enqueue` (offer) calls, applied in order. -/
def offerAll (s : State) (items : List SocketMessage) : State :=
  items.foldl enqueue s

/-! Helper lemmas. -/

theorem processNext_queue (s : State) : (processNext s).queue = s.queue := by
  unfold processNext; split <;> rfl

theorem processNext_packetDuration (s : State) :
    (processNext s).packetDuration = s.packetDuration := by
  unfold processNext; split <;> rfl

theorem processNext_volumeLevel (s : State) :
    (processNext s).volumeLevel = s.volumeLevel := by
  unfold processNext; split <;> rfl

theorem processNext_bufferLimit (s : State) :
    (processNext s).bufferLimit = s.bufferLimit := by
  unfold processNext; split <;> rfl

theorem processNext_streamSid (s : State) :
    (processNext s).streamSid = s.streamSid := by
  unfold processNext; split <;> rfl

theorem clamp16_le (x : ℤ) : clamp16 x ≤ 32767 := min_le_right _ _

theorem le_clamp16 (x : ℤ) : -32768 ≤ clamp16 x :=
  le_min (le_max_right _ _) (by norm_num)

theorem readInt16LE_writeInt16LE (x : ℤ) (hlo : -32768 ≤ x) (hhi : x ≤ 32767) :
    readInt16LE (writeInt16LE x).1 (writeInt16LE x).2 = x := by
  unfold readInt16LE writeInt16LE
  simp only []
  split <;> omega

theorem samples_adjustSamples (g : ℚ) :
    ∀ d, samples (adjustSamples g d) =
      (samples d).map (fun s : ℤ => clamp16 (Int.floor ((s : ℚ) * g)))
  | [] => rfl
  | [_] => rfl
  | lo :: hi :: rest => by
    have ih := samples_adjustSamples g rest
    simp only [adjustSamples, samples, List.map_cons]
    rw [readInt16LE_writeInt16LE _ (le_clamp16 _) (clamp16_le _), ih]

theorem adjustSamples_length (g : ℚ) :
    ∀ d, (adjustSamples g d).length = d.length
  | [] => rfl
  | [_] => rfl
  | _ :: _ :: rest => by
    simp only [adjustSamples, List.length_cons]
    rw [adjustSamples_length g rest]

theorem adjustSamples_getLast_odd (g : ℚ) :
    ∀ d, d.length % 2 = 1 → (adjustSamples g d).getLast? = some 0
  | [], h => by simp at h
  | [_], _ => rfl
  | lo :: hi :: rest, h => by
    have hr : rest.length % 2 = 1 := by
      simp only [List.length_cons] at h; omega
    have ih := adjustSamples_getLast_odd g rest hr
    cases hrest : adjustSamples g rest with
    | nil =>
      rw [hrest] at ih
      simp at ih
    | cons c t =>
      rw [hrest] at ih
      simp only [adjustSamples, hrest, List.getLast?_cons_cons]
      exact ih

theorem applyGainAtEnqueue_eq (v : ℚ) (m : SocketMessage) :
    applyGainAtEnqueue v m = m := by
  obtain ⟨e, md, mk⟩ := m
  unfold applyGainAtEnqueue
  split
  next h =>
    cases md with
    | some p => simp [adjustVolume, h]
    | none => rfl
  next h => rfl

theorem enqueue_of_full (s : State) (m : SocketMessage)
    (h : s.bufferLimit ≤ (s.queue.length : ℚ)) : enqueue s m = s := by
  unfold enqueue; rw [if_pos h]

theorem enqueue_queue_of_not_full (s : State) (m : SocketMessage)
    (h : ¬ s.bufferLimit ≤ (s.queue.length : ℚ)) :
    (enqueue s m).queue = s.queue ++ [m] := by
  unfold enqueue
  rw [if_neg h, processNext_queue, applyGainAtEnqueue_eq]

theorem enqueue_bufferLimit (s : State) (m : SocketMessage) :
    (enqueue s m).bufferLimit = s.bufferLimit := by
  unfold enqueue
  split
  · rfl
  · rw [processNext_bufferLimit]

theorem offerAll_queue (n : ℕ) (items : List SocketMessage) :
    ∀ (s : State), s.bufferLimit = (n : ℚ) → s.queue.length ≤ n →
      (offerAll s items).queue = s.queue ++ items.take (n - s.queue.length) := by
  induction items with
  | nil => intro s hn hlen; simp [offerAll]
  | cons m items ih =>
    intro s hn hlen
    have hstep : offerAll s (m :: items) = offerAll (enqueue s m) items := rfl
    by_cases hfull : n ≤ s.queue.length
    · have hq : s.bufferLimit ≤ (s.queue.length : ℚ) := by
        rw [hn]; exact_mod_cast hfull
      have h0 : n - s.queue.length = 0 := by omega
      rw [hstep, enqueue_of_full s m hq, ih s hn hlen, h0]
      simp [h0]
    · have hlt : s.queue.length < n := lt_of_not_le hfull
      have hq : ¬ s.bufferLimit ≤ (s.queue.length : ℚ) := by
        rw [hn]; exact not_le.mpr (by exact_mod_cast hlt)
      have hq' := enqueue_queue_of_not_full s m hq
      have hlen' : (enqueue s m).queue.length ≤ n := by
        rw [hq']; simp; omega
      have hn' : (enqueue s m).bufferLimit = (n : ℚ) := by
        rw [enqueue_bufferLimit, hn]
      rw [hstep, ih (enqueue s m) hn' hlen', hq']
      have hsucc : n - s.queue.length = (n - (s.queue.length + 1)) + 1 := by omega
      have hlen2 : (s.queue ++ [m]).length = s.queue.length + 1 := by simp
      rw [hlen2, hsucc, List.take_succ_cons]
      simp

theorem sendNext_nil (s : State) (h : s.queue = []) :
    sendNext s = ({ s with isSending := false, packetDuration := 0 }, none) := by
  unfold sendNext; rw [h]

theorem sendNext_wire (s : State) (msg : SocketMessage) (rest : List SocketMessage)
    (hq : s.queue = msg :: rest) :
    (sendNext s).2 = some (sendToTwilio s.streamSid msg) := by
  unfold sendNext; rw [hq]

theorem sendNext_queue (s : State) (msg : SocketMessage) (rest : List SocketMessage)
    (hq : s.queue = msg :: rest) : (sendNext s).1.queue = rest := by
  unfold sendNext
  rw [hq]
  cases hm : msg.media with
  | none => simp [hm, processNext_queue]
  | some p =>
    by_cases hp : p = [] <;> simp [hm, hp, processNext_queue]

theorem sendNext_pd_media (s : State) (msg : SocketMessage) (rest : List SocketMessage)
    (p : List ℕ) (hq : s.queue = msg :: rest) (hm : msg.media = some p) (hp : p ≠ []) :
    (sendNext s).1.packetDuration = durationMs p.length := by
  unfold sendNext
  rw [hq]
  simp [hm, hp, processNext_packetDuration]

theorem sendNext_pd_nonmedia (s : State) (msg : SocketMessage) (rest : List SocketMessage)
    (hq : s.queue = msg :: rest) (hm : msg.media = none) :
    (sendNext s).1.packetDuration = s.packetDuration := by
  unfold sendNext
  rw [hq]
  simp [hm, processNext_packetDuration]

theorem sendNext_pd_emptyPayload (s : State) (msg : SocketMessage)
    (rest : List SocketMessage) (hq : s.queue = msg :: rest) (hm : msg.media = some []) :
    (sendNext s).1.packetDuration = s.packetDuration := by
  unfold sendNext
  rw [hq]
  simp [hm, processNext_packetDuration]

end CallMediaQueue

open CallMediaQueue

/-- Claim C1 (code bug, evaluation at the failing input): with gain 0.5 set on
the session, `media` admits the raw two-byte payload `[32, 78]` (the sample
20000) to the queue unchanged, because `enqueue` invokes `adjustVolume` only
under the guard `volumeLevel === 1`; the gain-adjusted payload the claim
requires would be `[16, 39]` (the sample 10000). -/
theorem c1_enqueue_skips_gain_when_not_one :
    (CallMediaQueue.media { initialState "sid" with volumeLevel := 1/2 }
        [32, 78]).queue.map SocketMessage.media = [some [32, 78]] ∧
    adjustVolume (1/2) [32, 78] = [16, 39] ∧
    (some [32, 78] : Option (List ℕ)) ≠ some [16, 39] := by
  refine ⟨?_, ?_, by decide⟩
  · norm_num [CallMediaQueue.media, enqueue, initialState, applyGainAtEnqueue, processNext]
  · have hfloor : Int.floor ((readInt16LE 32 78 : ℚ) * (1/2)) = 10000 := by
      norm_num [readInt16LE]
    norm_num [adjustVolume, adjustSamples, hfloor, clamp16, writeInt16LE,
      min_def, max_def]
    decide

/-- Claim C2 (code bug, evaluation at the failing input): `setVolume(NaN)`
does not throw — `typeof NaN === 'number'` and both `NaN < 0` and `NaN > 1`
are false — and the stored volume becomes `Math.max(0, Math.min(1, NaN)) =
NaN`, contradicting the claim that every non-finite input is rejected with
the state left unchanged. -/
theorem c2_setVolume_accepts_nan :
    setVolumeNum (JSVal.num JSNumber.nan) = Except.ok JSNumber.nan := rfl

/-- Claim C3: starting from the constructor state with capacity `n`, any
sequence of offers leaves exactly the first `n` items in the queue in offer
order (so the length never exceeds `n`), and an offer against a queue already
holding at least `n` items returns the state unchanged. -/
theorem c3_capacity (n : ℕ) (sid : String) (items : List SocketMessage)
    (s : CallMediaQueue.State) (m : SocketMessage)
    (hlim : s.bufferLimit = (n : ℚ)) (hfull : n ≤ s.queue.length) :
    (offerAll { initialState sid with bufferLimit := (n : ℚ) } items).queue
      = items.take n ∧
    (offerAll { initialState sid with bufferLimit := (n : ℚ) } items).queue.length ≤ n ∧
    enqueue s m = s := by
  have h1 := offerAll_queue n items { initialState sid with bufferLimit := (n : ℚ) }
    rfl (by simp [initialState])
  have hq : (offerAll { initialState sid with bufferLimit := (n : ℚ) } items).queue
      = items.take n := by simpa [initialState] using h1
  refine ⟨hq, ?_, ?_⟩
  · rw [hq, List.length_take]
    exact min_le_left _ _
  · exact enqueue_of_full s m (by rw [hlim]; exact_mod_cast hfull)

/-- Witness for C3 at capacity 2 with three offered items: the first two are
kept in order, the third offer is rejected with the queue unchanged. -/
theorem c3_capacity_witness :
    (offerAll { initialState "sid" with bufferLimit := ((2 : ℕ) : ℚ) }
        [⟨Event.mark, none, some "a"⟩, ⟨Event.mark, none, some "b"⟩,
         ⟨Event.mark, none, some "c"⟩]).queue
      = List.take 2 [⟨Event.mark, none, some "a"⟩, ⟨Event.mark, none, some "b"⟩,
         ⟨Event.mark, none, some "c"⟩] ∧
    (offerAll { initialState "sid" with bufferLimit := ((2 : ℕ) : ℚ) }
        [⟨Event.mark, none, some "a"⟩, ⟨Event.mark, none, some "b"⟩,
         ⟨Event.mark, none, some "c"⟩]).queue.length ≤ 2 ∧
    enqueue { initialState "sid" with bufferLimit := ((2 : ℕ) : ℚ), queue := [⟨Event.mark, none, some "a"⟩, ⟨Event.mark, none, some "b"⟩] }
      ⟨Event.mark, none, some "c"⟩
      = { initialState "sid" with bufferLimit := ((2 : ℕ) : ℚ), queue := [⟨Event.mark, none, some "a"⟩, ⟨Event.mark, none, some "b"⟩] } :=
  c3_capacity 2 "sid"
    [⟨Event.mark, none, some "a"⟩, ⟨Event.mark, none, some "b"⟩,
     ⟨Event.mark, none, some "c"⟩]
    { initialState "sid" with bufferLimit := ((2 : ℕ) : ℚ), queue := [⟨Event.mark, none, some "a"⟩, ⟨Event.mark, none, some "b"⟩] }
    ⟨Event.mark, none, some "c"⟩ rfl (by decide)

/-- Claim C4 (counterexample): draining a `Media` item whose payload is empty
(the empty string is falsy, so `socketMessage?.media?.payload` skips the
update) leaves `packetDuration` at its previous value 10, while the claimed
formula yields `durationMs 0 = 0`. -/
theorem c4_counterexample :
    (sendNext { initialState "sid" with
        queue := [⟨Event.media, some [], none⟩],
        packetDuration := 10 }).1.packetDuration = 10 ∧
    durationMs 0 = 0 ∧ (10 : ℚ) ≠ 0 := by
  refine ⟨?_, ?_, by norm_num⟩
  · rw [sendNext_pd_emptyPayload _ ⟨Event.media, some [], none⟩ [] rfl rfl]
  · norm_num [durationMs, channels, bytesPerSample, sampleRate]

/-- Claim C4 as amended: draining a `Media` item with a nonempty payload sets
`packetDuration` to `(payloadByteLength / (channels * bytesPerSample)) /
sampleRate * 1000` with `channels = 1`, `bytesPerSample = 2`,
`sampleRate = 16000`, computed from the raw byte length of the payload — in
particular a 16000-byte payload yields exactly 500 ms, while the base64 wire
length of the same payload would not. -/
theorem c4_duration (s : CallMediaQueue.State) (payload : List ℕ)
    (rest : List SocketMessage) (mk : Option String)
    (hq : s.queue = ⟨Event.media, some payload, mk⟩ :: rest) (hp : payload ≠ []) :
    (sendNext s).1.packetDuration = durationMs payload.length ∧
    durationMs payload.length = ((payload.length : ℚ) / ((1 : ℚ) * 2)) / 16000 * 1000 ∧
    durationMs 16000 = 500 ∧
    durationMs (base64Length 16000) ≠ 500 := by
  refine ⟨sendNext_pd_media s _ rest payload hq rfl hp, ?_, ?_, ?_⟩
  · norm_num [durationMs, channels, bytesPerSample, sampleRate]
  · norm_num [durationMs, channels, bytesPerSample, sampleRate]
  · norm_num [durationMs, base64Length, channels, bytesPerSample, sampleRate]

/-- Witness for C4 at a concrete two-byte media payload. -/
theorem c4_duration_witness :
    (sendNext { initialState "sid" with
        queue := [⟨Event.media, some [0, 0], none⟩] }).1.packetDuration
      = durationMs ([0, 0] : List ℕ).length ∧
    durationMs ([0, 0] : List ℕ).length
      = ((([0, 0] : List ℕ).length : ℚ) / ((1 : ℚ) * 2)) / 16000 * 1000 ∧
    durationMs 16000 = 500 ∧
    durationMs (base64Length 16000) ≠ 500 :=
  c4_duration { initialState "sid" with queue := [⟨Event.media, some [0, 0], none⟩] }
    [0, 0] [] none rfl (by decide)

/-- Claim C5: `clear()` empties the queue (touching no other field), returns
exactly one `Clear` wire message that is never appended to the queue, and a
drain timer firing afterwards sends nothing. -/
theorem c5_clear (s : CallMediaQueue.State) :
    (clear s).1 = { s with queue := [] } ∧
    (clear s).2 = { event := Event.clear, streamSid := s.streamSid,
                    media := none, mark := none } ∧
    (sendNext (clear s).1).2 = none := by
  refine ⟨rfl, rfl, ?_⟩
  rw [sendNext_nil _ rfl]

/-- Claim C6: `packetDuration` is reset to 0 when the drain fires on an empty
queue; draining a non-media item leaves it unchanged; it changes only when
the drained head is a `Media` item with a nonempty payload, in which case it
becomes that payload's duration; and `clear()` never alters it. -/
theorem c6_packetDuration :
    (∀ s : CallMediaQueue.State, s.queue = [] → (sendNext s).1.packetDuration = 0) ∧
    (∀ (s : CallMediaQueue.State) (msg : SocketMessage) (rest : List SocketMessage),
      s.queue = msg :: rest → msg.media = none →
      (sendNext s).1.packetDuration = s.packetDuration) ∧
    (∀ (s : CallMediaQueue.State) (msg : SocketMessage) (rest : List SocketMessage),
      s.queue = msg :: rest →
      (sendNext s).1.packetDuration ≠ s.packetDuration →
      ∃ p : List ℕ, msg.media = some p ∧ p ≠ [] ∧
        (sendNext s).1.packetDuration = durationMs p.length) ∧
    (∀ s : CallMediaQueue.State, (clear s).1.packetDuration = s.packetDuration) := by
  refine ⟨?_, ?_, ?_, ?_⟩
  · intro s h
    rw [sendNext_nil s h]
  · intro s msg rest hq hm
    exact sendNext_pd_nonmedia s msg rest hq hm
  · intro s msg rest hq hne
    cases hm : msg.media with
    | none => exact absurd (sendNext_pd_nonmedia s msg rest hq hm) hne
    | some p =>
      by_cases hp : p = []
      · subst hp
        exact absurd (sendNext_pd_emptyPayload s msg rest hq hm) hne
      · exact ⟨p, rfl, hp, sendNext_pd_media s msg rest p hq hm hp⟩
  · intro s; rfl

/-- Witness for C6: an empty drain resets the duration; draining a mark keeps
it; draining a nonempty media item recomputes it; `clear` keeps it. -/
theorem c6_packetDuration_witness :
    (sendNext { initialState "e" with packetDuration := 7 }).1.packetDuration = 0 ∧
    (sendNext { initialState "e" with queue := [⟨Event.mark, none, some "m"⟩], packetDuration := 7 }).1.packetDuration
      = ({ initialState "e" with queue := [⟨Event.mark, none, some "m"⟩], packetDuration := 7 } : CallMediaQueue.State).packetDuration ∧
    (∃ p : List ℕ, (⟨Event.media, some [0, 1], none⟩ : SocketMessage).media = some p ∧
      p ≠ [] ∧
      (sendNext { initialState "e" with
          queue := [⟨Event.media, some [0, 1], none⟩] }).1.packetDuration
        = durationMs p.length) ∧
    (clear { initialState "e" with packetDuration := 7 }).1.packetDuration
      = ({ initialState "e" with packetDuration := 7 } : CallMediaQueue.State).packetDuration :=
  ⟨c6_packetDuration.1 _ rfl,
   c6_packetDuration.2.1 _ ⟨Event.mark, none, some "m"⟩ [] rfl rfl,
   c6_packetDuration.2.2.1 _ ⟨Event.media, some [0, 1], none⟩ [] rfl
     (by
       rw [sendNext_pd_media _ ⟨Event.media, some [0, 1], none⟩ [] [0, 1] rfl rfl (by decide)]
       norm_num [durationMs, channels, bytesPerSample, sampleRate, initialState]),
   c6_packetDuration.2.2.2 _⟩

/-- Claim C7 (counterexample): the output buffer is freshly allocated and
zero-filled, so on an odd-length input the trailing byte is zeroed, not
carried over: `adjustVolume 0.5 [0, 0, 255] = [0, 0, 0]` while the input's
last byte is 255. -/
theorem c7_counterexample :
    adjustVolume (1/2) [0, 0, 255] = [0, 0, 0] ∧
    ([0, 0, 255] : List ℕ).getLast? = some 255 ∧ (255 : ℕ) ≠ 0 := by
  refine ⟨?_, rfl, by decide⟩
  have hfloor : Int.floor ((readInt16LE 0 0 : ℚ) * (1/2)) = 0 := by
    norm_num [readInt16LE]
  norm_num [adjustVolume, adjustSamples, hfloor, clamp16, writeInt16LE,
    min_def, max_def]

/-- Claim C7 as amended: for gain `g ≠ 1` in `[0,1]`, every whole 16-bit
little-endian sample `s` is mapped to `clamp(floor(s * g), -32768, 32767)`,
every output sample lies in `[-32768, 32767]`, and a trailing odd byte is not
processed as a sample — in the output it is the zero fill of the fresh
allocation, not the input's byte. -/
theorem c7_adjustVolume (g : ℚ) (audioData : List ℕ)
    (h0 : 0 ≤ g) (h1 : g ≤ 1) (hg : g ≠ 1) :
    samples (adjustVolume g audioData) =
      (samples audioData).map (fun s : ℤ => clamp16 (Int.floor ((s : ℚ) * g))) ∧
    (∀ x ∈ samples (adjustVolume g audioData), -32768 ≤ x ∧ x ≤ 32767) ∧
    (audioData.length % 2 = 1 → (adjustVolume g audioData).getLast? = some 0) := by
  have hmap : samples (adjustVolume g audioData) =
      (samples audioData).map (fun s : ℤ => clamp16 (Int.floor ((s : ℚ) * g))) := by
    unfold adjustVolume
    rw [if_neg hg]
    exact samples_adjustSamples g audioData
  refine ⟨hmap, ?_, ?_⟩
  · intro x hx
    rw [hmap] at hx
    obtain ⟨y, hy, rfl⟩ := List.mem_map.mp hx
    exact ⟨le_clamp16 _, clamp16_le _⟩
  · intro hodd
    unfold adjustVolume
    rw [if_neg hg]
    exact adjustSamples_getLast_odd g audioData hodd

/-- Witness for C7 at gain 0.5 on the odd-length buffer `[32, 78, 9]`. -/
theorem c7_adjustVolume_witness :
    samples (adjustVolume (1/2) [32, 78, 9]) =
      (samples [32, 78, 9]).map (fun s : ℤ => clamp16 (Int.floor ((s : ℚ) * (1/2)))) ∧
    (∀ x ∈ samples (adjustVolume (1/2) [32, 78, 9]), -32768 ≤ x ∧ x ≤ 32767) ∧
    (([32, 78, 9] : List ℕ).length % 2 = 1 →
      (adjustVolume (1/2) [32, 78, 9]).getLast? = some 0) :=
  c7_adjustVolume (1/2) [32, 78, 9] (by norm_num) (by norm_num) (by norm_num)

/-- Claim C8: `adjustVolume` preserves the buffer length for every gain in
`[0,1]`, and at gain 1 it returns the input unchanged. -/
theorem c8_length_identity (g : ℚ) (b : List ℕ) (h0 : 0 ≤ g) (h1 : g ≤ 1) :
    (adjustVolume g b).length = b.length ∧ adjustVolume 1 b = b := by
  constructor
  · unfold adjustVolume
    split
    · rfl
    · exact adjustSamples_length g b
  · unfold adjustVolume
    rw [if_pos rfl]

/-- Witness for C8 at gain 0.5 on a three-byte buffer. -/
theorem c8_length_identity_witness :
    (adjustVolume (1/2) [1, 2, 3]).length = ([1, 2, 3] : List ℕ).length ∧
    adjustVolume 1 [1, 2, 3] = [1, 2, 3] :=
  c8_length_identity (1/2) [1, 2, 3] (by norm_num) (by norm_num)

/-- Claim C9: an inbound `{"event":"mark","mark":{"name":N}}` message emits
the mark-echo callback with `N` exactly once and leaves the state untouched;
a message with any other event value emits nothing and leaves the state
untouched. -/
theorem c9_inbound_mark :
    (∀ (s : CallMediaQueue.State) (n : String),
      onMessage s { event := "mark", mark := some { name := n } } = (s, [n])) ∧
    (∀ (s : CallMediaQueue.State) (e : String) (mk : Option InboundMark),
      e ≠ "mark" → onMessage s { event := e, mark := mk } = (s, [])) := by
  constructor
  · intro s n
    simp [onMessage]
  · intro s e mk he
    unfold onMessage
    rw [if_neg he]

/-- Witness for C9: the spec's scenario message emits `"chunk1"` once; an
inbound `media` event is ignored. -/
theorem c9_inbound_mark_witness :
    onMessage (initialState "x") { event := "mark", mark := some { name := "chunk1" } }
      = (initialState "x", ["chunk1"]) ∧
    onMessage (initialState "x") { event := "media", mark := none }
      = (initialState "x", []) :=
  ⟨c9_inbound_mark.1 (initialState "x") "chunk1",
   c9_inbound_mark.2 (initialState "x") "media" none (by decide)⟩

/-- Claim C10: a successful `setVolume` call leaves the queue (and therefore
every queued payload) unchanged, and the drain path sends the head item with
its admitted payload verbatim — no gain is re-applied at send time. -/
theorem c10_gain_frame :
    (∀ (s : CallMediaQueue.State) (v : ℚ) (s' : CallMediaQueue.State),
      setVolume s v = Except.ok s' → s'.queue = s.queue) ∧
    (∀ (t : CallMediaQueue.State) (msg : SocketMessage) (rest : List SocketMessage),
      t.queue = msg :: rest →
      (sendNext t).2 = some { event := msg.event, streamSid := t.streamSid,
                              media := msg.media, mark := msg.mark } ∧
      (sendNext t).1.queue = rest) := by
  constructor
  · intro s v s' h
    unfold setVolume at h
    split at h
    · exact absurd h (by simp)
    · cases h; rfl
  · intro t msg rest hq
    exact ⟨sendNext_wire t msg rest hq, sendNext_queue t msg rest hq⟩

/-- Witness for C10: setting the volume to 1/3 with one queued media item
keeps the queue, and the subsequent drain sends that item's payload as
admitted. -/
theorem c10_gain_frame_witness :
    ({ initialState "z" with queue := [⟨Event.media, some [5, 6], none⟩], volumeLevel := 1/3 } : CallMediaQueue.State).queue
      = ({ initialState "z" with
          queue := [⟨Event.media, some [5, 6], none⟩] } : CallMediaQueue.State).queue ∧
    ((sendNext { initialState "z" with queue := [⟨Event.media, some [5, 6], none⟩] }).2
        = some { event := Event.media, streamSid := "z", media := some [5, 6],
                 mark := none } ∧
      (sendNext { initialState "z" with
          queue := [⟨Event.media, some [5, 6], none⟩] }).1.queue = []) :=
  ⟨c10_gain_frame.1 { initialState "z" with queue := [⟨Event.media, some [5, 6], none⟩] }
      (1/3)
      { initialState "z" with queue := [⟨Event.media, some [5, 6], none⟩], volumeLevel := 1/3 }
      (by norm_num [setVolume, min_def, max_def]),
   c10_gain_frame.2 { initialState "z" with queue := [⟨Event.media, some [5, 6], none⟩] }
      ⟨Event.media, some [5, 6], none⟩ [] rfl⟩
